import Mathlib

/-!
Verification development for the nanoninja/render Go library.

This file gives a shallow embedding of the library's core logic:

* Go errors (`errors.New`, `fmt.Errorf` with `%w`, `errors.Is`) as `GoErr` / `errorsIs`;
* the cancellation token (`context.Context` + `CheckContext` from render.go) as `Ctx`,
  where cancellation is a monotone event at an abstract step index;
* dynamic values (`any`) as `GoVal`, with a model of `fmt.Sprintf` for the verbs
  the Text renderer exercises;
* `FormatOptions` (format.go) and `Options` (options.go) with their functional
  combinators, option functions `func(*Options)` being Lean functions `Options → Options`
  folded left-to-right exactly as `Options.Use` does;
* the Text, JSON, XML, CSV renderers, the `BufferRenderer` decorator (buffer.go) and the
  template renderers, each `RenderContext` returning the pair
  (bytes written to the sink, returned error); external encoders (encoding/json,
  encoding/xml, template execution) are abstract parameters, as the spec treats them
  as external collaborators;
* the template loaders (tmpl/loader): `StringLoader`, `CompositeLoader`, `FSLoader`,
  `EmbedLoader`, with Go's `path.Clean` / `path.Join` modelled for slash paths
  (the Linux `filepath` behavior);
* a small ref/store model for `Options.Clone` aliasing claims.
-/

/-- Go error values: `base` is an `errors.New` sentinel (or a context error),
`wrap` is `fmt.Errorf` whose `%w` operand is the inner error, and `wrapNil` is
`fmt.Errorf` whose `%w` operand was a nil error (it wraps nothing). -/
inductive GoErr where
  | base (msg : String)
  | wrap (msg : String) (inner : GoErr)
  | wrapNil (msg : String)
deriving DecidableEq, Repr

/-- Model of Go `errors.Is`: compare, then walk the `%w` unwrap chain. -/
def errorsIs : GoErr → GoErr → Bool
  | .base m, t => decide (GoErr.base m = t)
  | .wrap m inner, t => decide (GoErr.wrap m inner = t) || errorsIs inner t
  | .wrapNil m, t => decide (GoErr.wrapNil m = t)

/-- `ErrInvalidData` from errors.go (part_007). -/
def errInvalidData : GoErr := .base "invalid data for renderer"

/-- `tmpl.ErrTemplateNotFound` from tmpl/errors.go. -/
def errTemplateNotFound : GoErr := .base "template not found"

/-- `context.Canceled`. -/
def ctxCanceled : GoErr := .base "context canceled"

/-- Truth of "the token is signaled at step `step`", for a token that becomes
signaled at step `t` (if ever) and stays signaled: monotone in `step`. -/
def ctxDone (cancelAt : Option Nat) (step : Nat) : Bool :=
  match cancelAt with
  | none => false
  | some t => decide (t ≤ step)

/-- A cancellation token: when (if ever) it becomes signaled, and the error
`ctx.Err()` reports (`context.Canceled` or `context.DeadlineExceeded`). -/
structure Ctx where
  cancelAt : Option Nat
  reason : GoErr

/-- `CheckContext` from render.go (part_001, lines 85-92): a non-blocking poll,
returning `ctx.Err()` when the token is signaled at this step, else nil. -/
def Ctx.check (c : Ctx) (step : Nat) : Option GoErr :=
  if ctxDone c.cancelAt step then some c.reason else none

/-- A never-canceled token: `context.Background()`, used by every `Render`
method when it delegates to `RenderContext`. -/
def backgroundCtx : Ctx := ⟨none, ctxCanceled⟩

/-- Dynamic values passed as `data any` and as format arguments: a Go string,
a `fmt.Stringer` whose `String()` returns the payload, an `error` whose
`Error()` returns the payload, an integer, `[][]string` rows, a string map,
and nil. -/
inductive GoVal where
  | str (s : String)
  | stringer (s : String)
  | errVal (s : String)
  | int (n : Int)
  | rows (r : List (List String))
  | strMap (m : List (String × String))
  | nil
deriving DecidableEq, Repr

/-- Model of Go `fmt`'s `%v` default formatting for the `GoVal` shapes above
(the composite shapes are approximations; the claims only evaluate the
scalar ones). -/
def gostring : GoVal → String
  | .str s => s
  | .stringer s => s
  | .errVal s => s
  | .int n => toString n
  | .rows r => toString (repr r)
  | .strMap m => toString (repr m)
  | .nil => "<nil>"

/-- Go type name of a value, as printed inside `%!`-style fmt annotations. -/
def goTypeName : GoVal → String
  | .str _ => "string"
  | .stringer _ => "fmt.Stringer"
  | .errVal _ => "error"
  | .int _ => "int"
  | .rows _ => "[][]string"
  | .strMap _ => "map[string]string"
  | .nil => "<nil>"

/-- One fmt verb applied to one argument (`%s`, `%v`, `%d` over our values). -/
def fmtVerb (c : Char) (a : GoVal) : String :=
  if c = 'd' then
    match a with
    | .int n => toString n
    | v => "%!d(" ++ goTypeName v ++ "=" ++ gostring v ++ ")"
  else gostring a

/-- The `%!(EXTRA type=value, ...)` tail Go fmt appends for unconsumed args. -/
def extraArgs (args : List GoVal) : String :=
  "%!(EXTRA " ++ String.intercalate ", "
    (args.map (fun a => goTypeName a ++ "=" ++ gostring a)) ++ ")"

/-- Character-level model of Go `fmt.Sprintf`: literals pass through, `%%` is a
literal percent, `%s`/`%v`/`%d` consume an argument, a verb with no argument
left produces `%!x(MISSING)`, a trailing bare `%` produces `%!(NOVERB)`, and
leftover arguments produce an `%!(EXTRA ...)` tail. -/
def sprintfAux : List Char → List GoVal → List Char
  | [], [] => []
  | [], a :: as => (extraArgs (a :: as)).toList
  | c :: rest, args =>
    if c = '%' then
      match rest with
      | [] =>
        "%!(NOVERB)".toList ++
          (match args with
           | [] => []
           | a :: as => (extraArgs (a :: as)).toList)
      | v :: rest2 =>
        if v = '%' then '%' :: sprintfAux rest2 args
        else
          match args with
          | [] => ("%!".toList ++ [v] ++ "(MISSING)".toList) ++ sprintfAux rest2 []
          | a :: as => (fmtVerb v a).toList ++ sprintfAux rest2 as
    else c :: sprintfAux rest args

/-- Model of `fmt.Sprintf(format, args...)`. -/
def sprintf (format : String) (args : List GoVal) : String :=
  ⟨sprintfAux format.toList args⟩

/-- Whether a format string contains a `%` character (hence any verb). -/
def hasPct (s : String) : Bool := s.toList.contains '%'

/-- `FormatOptions` from format.go (part_000). The Go field `prefix` is named
`pfx` here; all other field names follow the source. -/
structure FormatOptions where
  pfx : String
  lineEnding : String
  indent : String
  pretty : Bool
  args : List GoVal
deriving Repr

/-- `FormatOptions.LineEnding()`: read-time default of `"\n"`. -/
def FormatOptions.lineEndingRead (o : FormatOptions) : String :=
  if o.lineEnding = "" then "\n" else o.lineEnding

/-- Ordered association list standing for a Go map (with its iteration order
fixed by the list order where a claim depends on it). -/
def assocGet {α : Type} (l : List (String × α)) (k : String) : Option α :=
  match l.find? (fun p => p.1 = k) with
  | some p => some p.2
  | none => none

/-- Replace the value at `k`, or append the binding when absent (Go map store). -/
def assocSet {α : Type} (l : List (String × α)) (k : String) (v : α) : List (String × α) :=
  match l with
  | [] => [(k, v)]
  | p :: rest => if p.1 = k then (k, v) :: rest else p :: assocSet rest k v

/-- `Options` from options.go: name, timeout, format, header
(`textproto.MIMEHeader`: key to ordered values), params. -/
structure Options where
  name : String
  timeout : Int
  format : FormatOptions
  header : List (String × List String)
  params : List (String × String)
deriving Repr

/-- `NewOptions()` = `(&Options{}).Reset()` (options.go lines 31-34, 102-112). -/
def newOptions : Options :=
  { name := "", timeout := 0,
    format := { pfx := "", lineEnding := "", indent := "", pretty := false, args := [] },
    header := [], params := [] }

/-- `Options.Use`: fold the option functions left to right (options.go 145-150). -/
def Options.use (o : Options) (opts : List (Options → Options)) : Options :=
  opts.foldl (fun acc f => f acc) o

/-- `Header(...)` combinator (options.go 185-191): apply header mutations in order. -/
def headerOpt (hs : List (List (String × List String) → List (String × List String))) :
    Options → Options :=
  fun o => { o with header := hs.foldl (fun acc f => f acc) o.header }

/-- `mime.FormatMediaType(mediatype, {charset: cs})` for plain tokens. -/
def formatMediaType (mediatype : String) (charset : Option String) : String :=
  match charset with
  | some cs => mediatype ++ "; charset=" ++ cs
  | none => mediatype

/-- `Mime(mediatype, charset...)` (options.go 207-216): sets Content-Type. -/
def mimeOpt (mediatype : String) (charset : Option String) : Options → Options :=
  headerOpt [fun h => assocSet h "Content-Type" [formatMediaType mediatype charset]]

/-- `MimeUTF8` (options.go 228-230). -/
def mimeUTF8 (mediatype : String) : Options → Options := mimeOpt mediatype (some "utf-8")

/-- `MimeTextPlain`, `MimeTextHTML`, `MimeJSON`, `MimeXML`, `MimeCSV` (render.go). -/
def mimeTextPlain : Options → Options := mimeUTF8 "text/plain"

def mimeTextHTML : Options → Options := mimeUTF8 "text/html"

def mimeJSON : Options → Options := mimeUTF8 "application/json"

def mimeXML : Options → Options := mimeUTF8 "application/xml"

def mimeCSV : Options → Options := mimeUTF8 "text/csv"

/-- `Name(name)` (options.go 232-235). -/
def nameOpt (n : String) : Options → Options := fun o => { o with name := n }

/-- `Param(key, value)` (options.go 239-246). -/
def paramOpt (k v : String) : Options → Options :=
  fun o => { o with params := assocSet o.params k v }

/-- `Separator(sep)` (options.go 253-255). -/
def separatorOpt (sep : String) : Options → Options := paramOpt "separator" sep

/-- `With(opts...)` (options.go 265-271). -/
def withOpt (opts : List (Options → Options)) : Options → Options :=
  fun o => o.use opts

/-- `Format(formatters...)` from format.go: fold mutations over the format field. -/
def formatOpt (fs : List (FormatOptions → FormatOptions)) : Options → Options :=
  fun o => { o with format := fs.foldl (fun acc f => f acc) o.format }

/-- `Args(args...)` (format.go 75-79). -/
def argsFmt (args : List GoVal) : FormatOptions → FormatOptions :=
  fun f => { f with args := args }

/-- `Pretty()` (format.go 96-98). -/
def prettyFmt : FormatOptions → FormatOptions := fun f => { f with pretty := true }

/-- `Indent(indent)` (format.go 101-103). -/
def indentFmt (s : String) : FormatOptions → FormatOptions := fun f => { f with indent := s }

/-- `LineEnding(ending)` (format.go 106-108). -/
def lineEndingFmt (s : String) : FormatOptions → FormatOptions :=
  fun f => { f with lineEnding := s }

/-- `Prefix(prefix)` (format.go 111-113); the Go name is `Prefix`. -/
def pfxFmt (s : String) : FormatOptions → FormatOptions := fun f => { f with pfx := s }

/-- `Comment(marker)` (format.go 91-93). -/
def commentFmt (marker : String) : FormatOptions → FormatOptions := pfxFmt (marker ++ " ")

/-- `Textf(args...)` (format.go 122-124). -/
def textfOpt (args : List GoVal) : Options → Options := formatOpt [argsFmt args]

/-- `UseCRLF()` (format.go 138-140). -/
def useCRLFOpt : Options → Options := formatOpt [lineEndingFmt "\r\n"]

/-- `textRenderer.RenderContext` from text.go (lines 40-64): check the token,
fold the options over `NewOptions().Use(MimeTextPlain())`, dispatch on the
dynamic type of `data` (string → Sprintf with the format args, Stringer →
`String()`, error → `Error()`, default → `%v`), append a newline when pretty,
and write the text. Returns (bytes written, error). -/
def textRenderContext (ctx : Ctx) (data : GoVal) (opts : List (Options → Options)) :
    String × Option GoErr :=
  match ctx.check 0 with
  | some e => ("", some e)
  | none =>
    let options := (newOptions.use [mimeTextPlain]).use opts
    let text :=
      match data with
      | .str v => sprintf v options.format.args
      | .stringer s => s
      | .errVal s => s
      | d => gostring d
    let text := if options.format.pretty then text ++ "\n" else text
    (text, none)

/-- `textRenderer.Render` (text.go 31-33): delegate with a background context. -/
def textRender (data : GoVal) (opts : List (Options → Options)) : String × Option GoErr :=
  textRenderContext backgroundCtx data opts

/-- `JSONConfig` from json.go (lines 15-27); `padding` is the JSONP wrapper name. -/
structure JSONConfig where
  escapeHTML : Bool
  pfx : String
  indent : String
  padding : String

/-- `jsonRenderer.RenderContext` from json.go (lines 63-93). The standard
encoder is the abstract parameter `encode`: given the HTML-escaping flag and
the `SetIndent` configuration (`none` when pretty is off), it yields the bytes
it writes and its error. When padding is configured the adapter writes
`padding(` before encoding and a deferred `)` afterwards (on every path past
that point, even when encoding failed). -/
def jsonRenderContext (cfg : JSONConfig) (ctx : Ctx)
    (encode : Bool → Option (String × String) → String × Option GoErr)
    (opts : List (Options → Options)) : String × Option GoErr :=
  match ctx.check 0 with
  | some e => ("", some e)
  | none =>
    let options := (newOptions.use [mimeJSON]).use opts
    let indentCfg : Option (String × String) :=
      if options.format.pretty then
        let p := if options.format.pfx = "" then cfg.pfx else options.format.pfx
        let i := if options.format.indent ≠ "" then options.format.indent else cfg.indent
        some (p, i)
      else none
    let body := encode cfg.escapeHTML indentCfg
    if cfg.padding ≠ "" then
      (cfg.padding ++ "(" ++ body.1 ++ ")", body.2)
    else body

/-- `XMLConfig` from xml.go (lines 15-27). -/
structure XMLConfig where
  pfx : String
  indent : String
  header : Bool

/-- The `xml.Header` constant. -/
def xmlHeaderBytes : String := "<?xml version=\"1.0\" encoding=\"UTF-8\"?>\n"

/-- `xmlRenderer.RenderContext` from xml.go (lines 66-94): check the token,
fold options over `MimeXML`, write the XML declaration when configured, then
encode with the abstract standard encoder (`SetIndent` configuration passed
when pretty, with the config value overridden by a non-empty Options value). -/
def xmlRenderContext (cfg : XMLConfig) (ctx : Ctx)
    (encode : Option (String × String) → String × Option GoErr)
    (opts : List (Options → Options)) : String × Option GoErr :=
  match ctx.check 0 with
  | some e => ("", some e)
  | none =>
    let options := (newOptions.use [mimeXML]).use opts
    let headerBytes := if cfg.header then xmlHeaderBytes else ""
    let indentCfg : Option (String × String) :=
      if options.format.pretty then
        let p := if options.format.pfx ≠ "" then options.format.pfx else cfg.pfx
        let i := if options.format.indent ≠ "" then options.format.indent else cfg.indent
        some (p, i)
      else none
    let body := encode indentCfg
    (headerBytes ++ body.1, body.2)

/-- Helper: whether a CSV field needs quoting (comma, quote, newline, or a
leading space or tab), modelling `encoding/csv`'s `fieldNeedsQuotes`. -/
def csvNeedsQuotes (comma : Char) (f : String) : Bool :=
  f.toList.contains comma || f.toList.contains '"' || f.toList.contains '\n' ||
  f.toList.contains '\r' ||
  (match f.toList with
   | c :: _ => c = ' ' || c = '\t'
   | [] => false)

/-- One CSV field, quoted and with quotes doubled when needed. -/
def csvField (comma : Char) (f : String) : String :=
  if csvNeedsQuotes comma f then
    "\"" ++ ⟨f.toList.flatMap (fun c => if c = '"' then ['"', '"'] else [c])⟩ ++ "\""
  else f

/-- Model of `csv.Writer.WriteAll`: each record's fields joined by the comma,
records terminated by CRLF or LF per `UseCRLF`. -/
def csvWriteAll (comma : Char) (useCRLF : Bool) (records : List (List String)) : String :=
  let terminator := if useCRLF then "\r\n" else "\n"
  String.join (records.map (fun r =>
    String.intercalate (String.singleton comma) (r.map (csvField comma)) ++ terminator))

/-- Whether a dynamic value has the `[][]string` shape the CSV adapter accepts. -/
def isRows : GoVal → Bool
  | .rows _ => true
  | _ => false

/-- `csvRenderer.RenderContext` from csv.go (lines 33-53): check the token,
fold options over `MimeCSV`, configure the writer's comma from the
`"separator"` param (first character, only when the param is non-empty) and
`UseCRLF` from the format line ending (only when it is non-empty), then
type-assert the data to `[][]string` — any other shape returns
`ErrInvalidData` with nothing written — and write all records. -/
def csvRenderContext (ctx : Ctx) (data : GoVal) (opts : List (Options → Options)) :
    String × Option GoErr :=
  match ctx.check 0 with
  | some e => ("", some e)
  | none =>
    let options := (newOptions.use [mimeCSV]).use opts
    let sep := (assocGet options.params "separator").getD ""
    let comma := match sep.toList with
      | c :: _ => c
      | [] => ','
    let useCRLF :=
      if options.format.lineEnding ≠ "" then options.format.lineEnding = "\r\n" else false
    match data with
    | .rows records => (csvWriteAll comma useCRLF records, none)
    | _ => ("", some errInvalidData)

/-- `csvRenderer.Render` (csv.go 26-28): delegate with a background context. -/
def csvRender (data : GoVal) (opts : List (Options → Options)) : String × Option GoErr :=
  csvRenderContext backgroundCtx data opts

/-- `BufferRenderer.RenderContext` from buffer.go (part_002, lines 93-127).
The inner renderer is abstracted by what it writes into the in-memory buffer
(`innerBytes`) and its returned error (`innerErr`); `post` is the configured
`PostRender` transform; `sinkErr` is the real sink's write result. Steps and
token checks, in source order: check (step 0); render into the buffer — on
error return it wrapped as "buffer render", the sink untouched; if a transform
is configured, check (step 1) and apply it — on error return it wrapped as
"post-processing", the sink untouched; check (step 2); write the final content
to the real sink in one call. The initial buffer size only pre-grows the
buffer and does not affect the result. -/
def bufferRenderContext (post : Option (String → Except GoErr String)) (ctx : Ctx)
    (innerBytes : String) (innerErr : Option GoErr) (sinkErr : Option GoErr) :
    String × Option GoErr :=
  match ctx.check 0 with
  | some e => ("", some e)
  | none =>
    match innerErr with
    | some e => ("", some (.wrap "buffer render" e))
    | none =>
      let content := innerBytes
      match post with
      | some f =>
        match ctx.check 1 with
        | some e => ("", some e)
        | none =>
          match f content with
          | .error e => ("", some (.wrap "post-processing" e))
          | .ok transformed =>
            match ctx.check 2 with
            | some e => ("", some e)
            | none => (transformed, sinkErr)
      | none =>
        match ctx.check 2 with
        | some e => ("", some e)
        | none => (content, sinkErr)

/-- `HTMLTemplate.RenderContext` from tmpl/html.go: check the token, fold
options over `MimeTextHTML`, clone the template tree (`t.Clone()`, abstracted
by `cloneRes`), then execute the root template or the named sub-template
(`exec`, abstracted as bytes written and error, keyed by the optional name). -/
def htmlTemplateRenderContext (ctx : Ctx) (cloneRes : Except GoErr Unit)
    (exec : Option String → String × Option GoErr)
    (opts : List (Options → Options)) : String × Option GoErr :=
  match ctx.check 0 with
  | some e => ("", some e)
  | none =>
    let options := (newOptions.use [mimeTextHTML]).use opts
    match cloneRes with
    | .error e => ("", some e)
    | .ok _ =>
      if options.name = "" then exec none else exec (some options.name)

/-- `TextTemplate.RenderContext` (package tmpl, concatenated into
src/json_test.go lines 222-238): check the token, fold options over
`MimeTextPlain`, clone the template tree (`t.Clone()`, abstracted by
`cloneRes`), then execute the root template or the named sub-template —
structurally the HTML adapter with `text/plain` as default content type. -/
def textTemplateRenderContext (ctx : Ctx) (cloneRes : Except GoErr Unit)
    (exec : Option String → String × Option GoErr)
    (opts : List (Options → Options)) : String × Option GoErr :=
  match ctx.check 0 with
  | some e => ("", some e)
  | none =>
    let options := (newOptions.use [mimeTextPlain]).use opts
    match cloneRes with
    | .error e => ("", some e)
    | .ok _ =>
      if options.name = "" then exec none else exec (some options.name)

/-- `WriteResponse` from options.go (lines 282-290): for every header key, for
every value in order, call the response writer's `Header().Set(k, value)` —
`Set` replaces the stored value list with the singleton. Returns the response
header map after the combinator runs, starting from `sink`. -/
def writeResponse (hdr : List (String × List String)) (sink : List (String × List String)) :
    List (String × List String) :=
  hdr.foldl (fun s kv => kv.2.foldl (fun s2 v => assocSet s2 kv.1 [v]) s) sink

/-- Whether the character list `p` is an initial segment of `l`
(model of `strings.HasPrefix` on the underlying bytes). -/
def listStarts : List Char → List Char → Bool
  | [], _ => true
  | _ :: _, [] => false
  | a :: as, b :: bs => a = b && listStarts as bs

/-- `strings.HasPrefix(s, p)`. -/
def strStartsWith (s p : String) : Bool := listStarts p.toList s.toList

/-- `strings.HasSuffix(s, p)`. -/
def strEndsWith (s p : String) : Bool := listStarts p.toList.reverse s.toList.reverse

/-- Split a string at `/` separators (model of `strings.Split(s, "/")`,
written structurally over the characters). `cur` holds the pending component
in reverse. -/
def splitSlashAux : List Char → List Char → List String
  | [], cur => [⟨cur.reverse⟩]
  | c :: rest, cur =>
    if c = '/' then (⟨cur.reverse⟩ : String) :: splitSlashAux rest []
    else splitSlashAux rest (c :: cur)

/-- Split a path into its `/`-separated components. -/
def splitSlash (s : String) : List String := splitSlashAux s.toList []

/-- Join components with `/` separators. -/
def joinSlash : List String → String
  | [] => ""
  | [p] => p
  | p :: rest => p ++ "/" ++ joinSlash rest

/-- The component stack of Go `path.Clean`: skip empty and `"."` components,
pop on `".."` (except past the root when rooted, and keeping leading `".."`s
when relative). `stack` holds processed components in reverse. -/
def cleanParts (rooted : Bool) : List String → List String → List String
  | stack, [] => stack.reverse
  | stack, p :: ps =>
    if p = "" ∨ p = "." then cleanParts rooted stack ps
    else if p = ".." then
      match stack with
      | q :: rest =>
        if q = ".." then cleanParts rooted (p :: q :: rest) ps
        else cleanParts rooted rest ps
      | [] => if rooted then cleanParts rooted [] ps else cleanParts rooted [".."] ps
    else cleanParts rooted (p :: stack) ps

/-- Model of Go `path.Clean` (and of `filepath.Clean` on Linux, where the
separator is `/`): lexical cleaning of `.` and `..` components. -/
def goPathClean (s : String) : String :=
  if s = "" then "."
  else
    let rooted := strStartsWith s "/"
    let parts := cleanParts rooted [] (splitSlash s)
    let joined := joinSlash parts
    if rooted then "/" ++ joined
    else if joined = "" then "." else joined

/-- Model of Go `path.Join` (and `filepath.Join` on Linux) for two elements:
join the non-empty elements with `/` and clean the result. -/
def goPathJoin (a b : String) : String :=
  if a = "" ∧ b = "" then ""
  else if a = "" then goPathClean b
  else if b = "" then goPathClean a
  else goPathClean (a ++ "/" ++ b)

/-- Model of `io/fs.ValidPath`: unrooted slash-separated path with no empty,
`"."` or `".."` elements (the `"."` root itself is not a readable file). -/
def fsValidPath (s : String) : Bool :=
  s ≠ "" && s ≠ "." && !(strStartsWith s "/") &&
  (splitSlash s).all (fun p => p ≠ "" && p ≠ "." && p ≠ "..")

/-- The `tmpl.Loader` capability (tmpl/loader.go): list names, read content,
extension filter. -/
structure Loader where
  load : String → Except GoErr (List String)
  read : String → Except GoErr String
  ext : String

/-- `baseLoader.hasValidExtension` (part_010): empty extension accepts all
files, otherwise a suffix check. -/
def hasValidExtension (ext name : String) : Bool :=
  if ext = "" then true else strEndsWith name ext

/-- `StringLoader` (tmpl/loader/string.go) over an in-memory template map,
represented as an association list whose order stands for the Go map's
iteration order. `Load` returns the names passing the extension filter in
iteration order; `Read` returns the content or `ErrTemplateNotFound`. -/
def stringLoader (templates : List (String × String)) (ext : String) : Loader where
  load := fun _ => .ok (templates.filterMap
    (fun p => if hasValidExtension ext p.1 then some p.1 else none))
  read := fun name =>
    match assocGet templates name with
    | some content => .ok content
    | none => .error (.wrap name errTemplateNotFound)
  ext := ext

/-- The seen-set/result-list accumulation of `CompositeLoader.Load`
(tmpl/loader part_006, lines 56-61): append each name not yet seen. -/
def addUnseen : List String → List String → List String → List String × List String
  | [], seen, acc => (seen, acc)
  | n :: ns, seen, acc =>
    if seen.contains n then addUnseen ns seen acc
    else addUnseen ns (n :: seen) (acc ++ [n])

/-- `CompositeLoader.Load` (part_006, lines 45-64): query children in order,
wrap a child failure as "composite load error", and keep only unseen names. -/
def compositeLoadAux (pattern : String) :
    List Loader → List String → List String → Except GoErr (List String)
  | [], _, acc => .ok acc
  | l :: rest, seen, acc =>
    match l.load pattern with
    | .error e => .error (.wrap "composite load error" e)
    | .ok names =>
      let sa := addUnseen names seen acc
      compositeLoadAux pattern rest sa.1 sa.2

/-- `CompositeLoader.Load` entry point. -/
def compositeLoad (loaders : List Loader) (pattern : String) : Except GoErr (List String) :=
  compositeLoadAux pattern loaders [] []

/-- `CompositeLoader.Read` (part_006, lines 68-84): try children in order,
return the first success; when all fail, reclassify the last error as
`ErrTemplateNotFound` when it was of that kind, else wrap it generically —
and when there was no child at all, wrap the nil last error. -/
def compositeReadAux (name : String) : List Loader → Option GoErr → Except GoErr String
  | [], lastErr =>
    match lastErr with
    | some e =>
      if errorsIs e errTemplateNotFound then
        .error (.wrap ("in any loader: " ++ name) errTemplateNotFound)
      else .error (.wrap "composite read error" e)
    | none => .error (.wrapNil "composite read error")
  | l :: rest, _ =>
    match l.read name with
    | .ok content => .ok content
    | .error e => compositeReadAux name rest (some e)

/-- `CompositeLoader.Read` entry point. -/
def compositeRead (loaders : List Loader) (name : String) : Except GoErr String :=
  compositeReadAux name loaders none

/-- `loader.ErrPathTraversal` (package loader's errors file, concatenated into
src/doc.go lines 63-65): the distinct path-traversal error sentinel, returned
when detecting an attempt to access files outside the root directory. -/
def errPathTraversal : GoErr := .base "path traversal attempt detected"

/-- `FSLoader.Read` (tmpl/loader/fs.go, lines 109-125): clean the joined path,
reject when the cleaned path does not have the root as a string prefix
(`strings.HasPrefix`), else read the file — absent files map to
`ErrTemplateNotFound`. The filesystem is the abstract map `fileSys` from
paths to contents. -/
def fsRead (root : String) (fileSys : String → Option String) (name : String) :
    Except GoErr String :=
  let path := goPathClean (goPathJoin root name)
  if !(strStartsWith path root) then
    .error (.wrap "attempt to read outside root directory" errPathTraversal)
  else
    match fileSys path with
    | some content => .ok content
    | none => .error (.wrap name errTemplateNotFound)

/-- `EmbedLoader.Read` (tmpl/loader/embed.go, lines 90-102): normalize
separators (`filepath.ToSlash`, the identity on Linux), join root and name
with `path.Join` (which cleans `..` components lexically), and read from the
embedded filesystem; absent files map to `ErrTemplateNotFound`, other
read failures are wrapped generically. No traversal check is performed. -/
def embedRead (root : String) (fileSys : String → Option String) (name : String) :
    Except GoErr String :=
  let path := goPathJoin root name
  if !(fsValidPath path) then .error (.wrap ("failed to read embedded template " ++ name)
    (.base "invalid path"))
  else
    match fileSys path with
    | some content => .ok content
    | none => .error (.wrap name errTemplateNotFound)

/-- A heap of the mutable containers an `Options` value points at: params maps,
header maps and args slices live at numeric references; `nextRef` is the
allocation bound (all live references are below it). -/
structure Store where
  nextRef : Nat
  paramsAt : Nat → List (String × String)
  headerAt : Nat → List (String × List String)
  argsAt : Nat → List GoVal

/-- Write the params map at reference `r`. -/
def Store.setParams (s : Store) (r : Nat) (v : List (String × String)) : Store :=
  { s with paramsAt := fun i => if i = r then v else s.paramsAt i }

/-- Write the header map at reference `r`. -/
def Store.setHeader (s : Store) (r : Nat) (v : List (String × List String)) : Store :=
  { s with headerAt := fun i => if i = r then v else s.headerAt i }

/-- Write the args slice at reference `r`. -/
def Store.setArgs (s : Store) (r : Nat) (v : List GoVal) : Store :=
  { s with argsAt := fun i => if i = r then v else s.argsAt i }

/-- An `Options` object under the store model: scalar fields (name, timeout,
and the scalar `FormatOptions` fields) held by value, the mutable containers
held by reference. -/
structure OptionsObj where
  name : String
  timeout : Int
  pfx : String
  lineEnding : String
  indent : String
  pretty : Bool
  argsRef : Nat
  headerRef : Nat
  paramsRef : Nat

/-- The object's references are all live. -/
def OptionsObj.wf (o : OptionsObj) (s : Store) : Prop :=
  o.paramsRef < s.nextRef ∧ o.headerRef < s.nextRef ∧ o.argsRef < s.nextRef

/-- `Options.Clone` (options.go, lines 46-61) with `FormatOptions.Clone`
(part_000, lines 40-48) under the store model: scalars are copied by value;
the params map is recreated with the pairs copied, the header map is recreated
with each value slice copied, and the args slice is copied into a fresh
backing array — three fresh allocations holding the same contents. -/
def cloneOptions (o : OptionsObj) (s : Store) : OptionsObj × Store :=
  let pr := s.nextRef
  let hr := s.nextRef + 1
  let ar := s.nextRef + 2
  let s1 := ((s.setParams pr (s.paramsAt o.paramsRef)).setHeader hr
    (s.headerAt o.headerRef)).setArgs ar (s.argsAt o.argsRef)
  ({ o with paramsRef := pr, headerRef := hr, argsRef := ar },
   { s1 with nextRef := s.nextRef + 3 })

/-- Stated from the spec's words for `CompositeLoader.Load`: de-duplicate by
name, first seen wins, keeping discovery order; `seen` are names already
claimed by earlier loaders. -/
def dedupFirstSeenAux (seen : List String) : List String → List String
  | [] => []
  | n :: ns =>
    if seen.contains n then dedupFirstSeenAux seen ns
    else n :: dedupFirstSeenAux (n :: seen) ns

/-- Stated from the spec's words: the concatenated name sequence de-duplicated
first-seen-wins. -/
def dedupFirstSeen (names : List String) : List String := dedupFirstSeenAux [] names

/-- The seen-set left behind after scanning `ns` (helper mirroring `addUnseen`'s
first component). -/
def seenAfter (seen : List String) : List String → List String
  | [] => seen
  | n :: ns => if seen.contains n then seenAfter seen ns else seenAfter (n :: seen) ns

/-- Stated from the spec's words for `CompositeLoader.Read`: the content from
the earliest child whose `Read` succeeds. -/
def firstSuccess (name : String) : List Loader → Option String
  | [] => none
  | l :: rest =>
    match l.read name with
    | .ok c => some c
    | .error _ => firstSuccess name rest

/-- Helper: `sprintf` with no `%` in the format and no args is the identity. -/
theorem sprintfAux_no_pct (l : List Char) (h : l.contains '%' = false) :
    sprintfAux l [] = l := by
  induction l with
  | nil => rfl
  | cons c rest ih =>
    simp only [List.contains_cons, Bool.or_eq_false_iff] at h
    have hc : ¬ c = '%' := by
      intro hv
      subst hv
      simp at h
    rw [sprintfAux.eq_def]
    simp [hc, ih h.2]

/-- C3: for every adapter (Text, JSON, XML, CSV, BufferRenderer, HTML template,
text template), every data value, every option list, every encoder/transform
behavior and every sink behavior, a cancellation token already signaled at call
entry makes `RenderContext` return the token's error with zero bytes written to
the sink — in particular the JSON adapter with padding configured writes no
opening `padding(` bytes. -/
theorem precanceled_token_all_adapters_write_nothing
    (cancelAt : Option Nat) (reason : GoErr) (h : ctxDone cancelAt 0 = true)
    (data : GoVal) (opts : List (Options → Options))
    (jcfg : JSONConfig) (jenc : Bool → Option (String × String) → String × Option GoErr)
    (xcfg : XMLConfig) (xenc : Option (String × String) → String × Option GoErr)
    (post : Option (String → Except GoErr String)) (innerBytes : String)
    (innerErr : Option GoErr) (sinkErr : Option GoErr)
    (cloneRes : Except GoErr Unit) (exec : Option String → String × Option GoErr) :
    textRenderContext ⟨cancelAt, reason⟩ data opts = ("", some reason)
    ∧ jsonRenderContext jcfg ⟨cancelAt, reason⟩ jenc opts = ("", some reason)
    ∧ xmlRenderContext xcfg ⟨cancelAt, reason⟩ xenc opts = ("", some reason)
    ∧ csvRenderContext ⟨cancelAt, reason⟩ data opts = ("", some reason)
    ∧ bufferRenderContext post ⟨cancelAt, reason⟩ innerBytes innerErr sinkErr
        = ("", some reason)
    ∧ htmlTemplateRenderContext ⟨cancelAt, reason⟩ cloneRes exec opts = ("", some reason)
    ∧ textTemplateRenderContext ⟨cancelAt, reason⟩ cloneRes exec opts = ("", some reason) := by
  refine ⟨?_, ?_, ?_, ?_, ?_, ?_, ?_⟩ <;>
    simp [textRenderContext, jsonRenderContext, xmlRenderContext, csvRenderContext,
      bufferRenderContext, htmlTemplateRenderContext, textTemplateRenderContext,
      Ctx.check, h]

/-- Witness for `precanceled_token_all_adapters_write_nothing` at a token
canceled at step 0, string data, a padding-configured JSON renderer and
concrete encoder/transform/sink behaviors. -/
theorem precanceled_token_all_adapters_write_nothing_witness :
    ctxDone (some 0) 0 = true
    ∧ jsonRenderContext ⟨true, "", "  ", "cb"⟩ ⟨some 0, ctxCanceled⟩
        (fun _ _ => ("{}\n", none)) [] = ("", some ctxCanceled) := by
  refine ⟨by decide, ?_⟩
  exact (precanceled_token_all_adapters_write_nothing (some 0) ctxCanceled (by decide)
    (.str "x") [] ⟨true, "", "  ", "cb"⟩ (fun _ _ => ("{}\n", none))
    ⟨"", "  ", true⟩ (fun _ => ("<a></a>", none)) none "" none none
    (.ok ()) (fun _ => ("", none))).2.1

/-- C1: for every inner renderer behavior (bytes written into the in-memory
buffer plus failure), every transform, and every sink behavior: an inner
failure during `BufferRenderer.RenderContext` yields zero bytes on the real
sink and the error wrapped as "buffer render"; a transform failure yields zero
bytes on the real sink and the error wrapped as "post-processing". -/
theorem buffer_failure_writes_nothing_wraps_error
    (cancelAt : Option Nat) (reason e : GoErr) (innerBytes : String)
    (sinkErr : Option GoErr) (h0 : ctxDone cancelAt 0 = false) :
    (∀ post, bufferRenderContext post ⟨cancelAt, reason⟩ innerBytes (some e) sinkErr
        = ("", some (.wrap "buffer render" e)))
    ∧ (∀ f, ctxDone cancelAt 1 = false → f innerBytes = Except.error e →
        bufferRenderContext (some f) ⟨cancelAt, reason⟩ innerBytes none sinkErr
          = ("", some (.wrap "post-processing" e))) := by
  constructor
  · intro post
    simp [bufferRenderContext, Ctx.check, h0]
  · intro f h1 hf
    simp [bufferRenderContext, Ctx.check, h0, h1, hf]

/-- Witness for `buffer_failure_writes_nothing_wraps_error`: a never-canceled
token, an inner renderer that wrote partial bytes then failed, and a failing
transform. -/
theorem buffer_failure_writes_nothing_wraps_error_witness :
    ctxDone none 0 = false
    ∧ bufferRenderContext none ⟨none, ctxCanceled⟩ "partial bytes"
        (some (.base "render error")) none
        = ("", some (.wrap "buffer render" (.base "render error")))
    ∧ bufferRenderContext (some (fun _ => Except.error (.base "post-process error")))
        ⟨none, ctxCanceled⟩ "test content" none none
        = ("", some (.wrap "post-processing" (.base "post-process error"))) := by
  refine ⟨by decide, ?_, ?_⟩
  · exact (buffer_failure_writes_nothing_wraps_error none ctxCanceled
      (.base "render error") "partial bytes" none (by decide)).1 none
  · exact (buffer_failure_writes_nothing_wraps_error none ctxCanceled
      (.base "post-process error") "test content" none (by decide)).2
      (fun _ => Except.error (.base "post-process error")) (by decide) rfl

/-- C2: for every run of `BufferRenderer.RenderContext` whose inner render
succeeded and whose transform (when configured) succeeds on the buffered
bytes, a token signaled at or before the pre-write check (step 2) — i.e.
strictly before the final write — results in zero bytes on the real sink and
the token's own cancellation reason as the returned error. -/
theorem buffer_cancel_before_final_write
    (cancelAt : Option Nat) (reason : GoErr) (innerBytes : String)
    (post : Option (String → Except GoErr String)) (sinkErr : Option GoErr)
    (hdone : ctxDone cancelAt 2 = true)
    (hpost : ∀ f, post = some f → ∃ t, f innerBytes = Except.ok t) :
    bufferRenderContext post ⟨cancelAt, reason⟩ innerBytes none sinkErr
      = ("", some reason) := by
  cases h0 : ctxDone cancelAt 0 with
  | true => simp [bufferRenderContext, Ctx.check, h0]
  | false =>
    cases post with
    | none => simp [bufferRenderContext, Ctx.check, h0, hdone]
    | some f =>
      obtain ⟨t, ht⟩ := hpost f rfl
      cases h1 : ctxDone cancelAt 1 with
      | true => simp [bufferRenderContext, Ctx.check, h0, h1]
      | false => simp [bufferRenderContext, Ctx.check, h0, h1, ht, hdone]

/-- Witness for `buffer_cancel_before_final_write`: a token that becomes
signaled at step 2 (after the successful inner render and after the transform
ran, strictly before the final write), with an identity transform. -/
theorem buffer_cancel_before_final_write_witness :
    ctxDone (some 2) 2 = true
    ∧ bufferRenderContext (some (fun s => Except.ok s)) ⟨some 2, ctxCanceled⟩
        "test content" none none = ("", some ctxCanceled) := by
  refine ⟨by decide, ?_⟩
  exact buffer_cancel_before_final_write (some 2) ctxCanceled "test content"
    (some (fun s => Except.ok s)) none (by decide)
    (fun f hf => ⟨"test content", by cases hf; rfl⟩)

/-- C8: for every data value that is not `[][]string`-shaped (strings, structs,
nil, maps, ...), every option list, and every not-yet-canceled token, the CSV
adapter's `RenderContext` — and `Render`, which delegates to it with a
background context — fails with `ErrInvalidData` and writes zero bytes. -/
theorem csv_non_rows_invalid_data_nothing_written
    (cancelAt : Option Nat) (reason : GoErr) (data : GoVal)
    (opts : List (Options → Options))
    (h0 : ctxDone cancelAt 0 = false) (hshape : isRows data = false) :
    csvRenderContext ⟨cancelAt, reason⟩ data opts = ("", some errInvalidData)
    ∧ csvRender data opts = ("", some errInvalidData) := by
  cases data <;> simp_all [csvRenderContext, csvRender, backgroundCtx, Ctx.check,
    isRows, ctxDone]

/-- Witness for `csv_non_rows_invalid_data_nothing_written` at string data and
a never-canceled token. -/
theorem csv_non_rows_invalid_data_nothing_written_witness :
    ctxDone none 0 = false
    ∧ isRows (.str "not tabular") = false
    ∧ csvRender (.str "not tabular") [] = ("", some errInvalidData) := by
  refine ⟨by decide, by decide, ?_⟩
  exact (csv_non_rows_invalid_data_nothing_written none ctxCanceled
    (.str "not tabular") [] (by decide) (by decide)).2

/-- Helper: `addUnseen` computes the extended seen-set and appends exactly the
first-seen de-duplication of its input. -/
theorem addUnseen_eq (ns : List String) : ∀ seen acc,
    addUnseen ns seen acc = (seenAfter seen ns, acc ++ dedupFirstSeenAux seen ns) := by
  induction ns with
  | nil => intro seen acc; simp [addUnseen, seenAfter, dedupFirstSeenAux]
  | cons n ns ih =>
    intro seen acc
    by_cases hm : n ∈ seen <;>
      simp [addUnseen, seenAfter, dedupFirstSeenAux, hm, ih]

/-- Helper: first-seen de-duplication distributes over concatenation through
the seen-set. -/
theorem dedupFirstSeenAux_append (ns : List String) : ∀ ms seen,
    dedupFirstSeenAux seen (ns ++ ms)
      = dedupFirstSeenAux seen ns ++ dedupFirstSeenAux (seenAfter seen ns) ms := by
  induction ns with
  | nil => intro ms seen; simp [dedupFirstSeenAux, seenAfter]
  | cons n ns ih =>
    intro ms seen
    by_cases hm : n ∈ seen <;> simp [dedupFirstSeenAux, seenAfter, hm, ih]

/-- Helper: when every child load succeeds, `CompositeLoader.Load`'s
accumulation equals the first-seen de-duplication of the concatenated results. -/
theorem compositeLoadAux_ok (pattern : String) :
    ∀ (loaders : List Loader) (results : List (List String)) (seen acc : List String),
    loaders.map (fun l => l.load pattern) = results.map Except.ok →
    compositeLoadAux pattern loaders seen acc
      = .ok (acc ++ dedupFirstSeenAux seen results.flatten) := by
  intro loaders
  induction loaders with
  | nil =>
    intro results seen acc h
    cases results with
    | nil => simp [compositeLoadAux, dedupFirstSeenAux]
    | cons r rs => simp at h
  | cons l rest ih =>
    intro results seen acc h
    cases results with
    | nil => simp at h
    | cons r rs =>
      simp only [List.map_cons, List.cons.injEq] at h
      obtain ⟨h1, h2⟩ := h
      simp only [compositeLoadAux, h1, addUnseen_eq]
      rw [ih rs _ _ h2]
      simp [List.flatten_cons, dedupFirstSeenAux_append, List.append_assoc]

/-- Helper: when some child read succeeds, `CompositeLoader.Read` returns the
earliest success, whatever the last error so far was. -/
theorem compositeReadAux_first (name : String) :
    ∀ (loaders : List Loader) (lastErr : Option GoErr) (content : String),
    firstSuccess name loaders = some content →
    compositeReadAux name loaders lastErr = .ok content := by
  intro loaders
  induction loaders with
  | nil => intro lastErr content h; simp [firstSuccess] at h
  | cons l rest ih =>
    intro lastErr content h
    cases hr : l.read name with
    | ok c =>
      simp [firstSuccess, hr] at h
      simp [compositeReadAux, hr, h]
    | error e =>
      simp [firstSuccess, hr] at h
      simp [compositeReadAux, hr, ih _ _ h]

/-- C4: for every composite over an ordered child sequence whose loads succeed,
`Load` returns the concatenation of the children's names in discovery order
de-duplicated first-seen-wins, and `Read` returns the content of the earliest
child that succeeds; in particular, for child A holding x.html:A and child B
holding x.html:B and y.html:B (in either iteration order of B's map),
`Load("")` is `["x.html", "y.html"]` and `Read("x.html")` is `"A"`. -/
theorem composite_load_dedup_read_first_success
    (loaders : List Loader) (pattern : String) (results : List (List String))
    (hres : loaders.map (fun l => l.load pattern) = results.map Except.ok)
    (name content : String) (hread : firstSuccess name loaders = some content) :
    compositeLoad loaders pattern = .ok (dedupFirstSeen results.flatten)
    ∧ compositeRead loaders name = .ok content
    ∧ (∀ bOrder ∈ [[("x.html", "B"), ("y.html", "B")], [("y.html", "B"), ("x.html", "B")]],
        compositeLoad [stringLoader [("x.html", "A")] ".html", stringLoader bOrder ".html"] ""
          = .ok ["x.html", "y.html"])
    ∧ compositeRead [stringLoader [("x.html", "A")] ".html",
        stringLoader [("x.html", "B"), ("y.html", "B")] ".html"] "x.html" = .ok "A" := by
  refine ⟨?_, ?_, ?_, ?_⟩
  · simpa [compositeLoad, dedupFirstSeen] using
      compositeLoadAux_ok pattern loaders results [] [] hres
  · exact compositeReadAux_first name loaders none content hread
  · intro bOrder hb
    simp only [List.mem_cons, List.not_mem_nil, or_false] at hb
    rcases hb with rfl | rfl <;> rfl
  · rfl

/-- Witness for `composite_load_dedup_read_first_success` at the spec's
two-loader instance. -/
theorem composite_load_dedup_read_first_success_witness :
    ([stringLoader [("x.html", "A")] ".html",
      stringLoader [("x.html", "B"), ("y.html", "B")] ".html"].map
        (fun l => l.load "") = [["x.html"], ["x.html", "y.html"]].map Except.ok)
    ∧ firstSuccess "x.html" [stringLoader [("x.html", "A")] ".html",
        stringLoader [("x.html", "B"), ("y.html", "B")] ".html"] = some "A"
    ∧ compositeLoad [stringLoader [("x.html", "A")] ".html",
        stringLoader [("x.html", "B"), ("y.html", "B")] ".html"] ""
        = .ok (dedupFirstSeen [["x.html"], ["x.html", "y.html"]].flatten) := by
  refine ⟨rfl, rfl, ?_⟩
  exact (composite_load_dedup_read_first_success
    [stringLoader [("x.html", "A")] ".html",
     stringLoader [("x.html", "B"), ("y.html", "B")] ".html"] ""
    [["x.html"], ["x.html", "y.html"]] rfl "x.html" "A" rfl).1

/-- C5 counterexample: an empty composite's `Read` does fail, but with the
generic "composite read error" wrapping a nil error — `errors.Is` against
`ErrTemplateNotFound` is false, so the error is not of the TemplateNotFound
kind the claim requires. -/
theorem composite_empty_read_error_not_template_not_found :
    compositeRead [] "a" = .error (GoErr.wrapNil "composite read error")
    ∧ errorsIs (GoErr.wrapNil "composite read error") errTemplateNotFound = false :=
  ⟨rfl, rfl⟩

/-- C5 amended: a composite over an empty child sequence returns an empty name
list and no error from `Load` for every pattern, and for every name its `Read`
fails — with the generic "composite read error" (wrapping no underlying
error), which is not of the TemplateNotFound kind. -/
theorem composite_empty_load_ok_read_generic_error (pattern name : String) :
    compositeLoad [] pattern = .ok []
    ∧ compositeRead [] name = .error (GoErr.wrapNil "composite read error")
    ∧ errorsIs (GoErr.wrapNil "composite read error") errTemplateNotFound = false :=
  ⟨rfl, rfl, rfl⟩

/-- C6: both loader `Read`s serve content for names whose resolved path escapes
the configured root, instead of rejecting with the path-traversal error kind:
`FSLoader.Read` passes its `strings.HasPrefix` guard for a sibling directory
sharing the root as a string prefix, and `EmbedLoader.Read` has no guard at
all (`path.Join` silently cleans the `..` away). The last two conjuncts record
that the resolved paths indeed lie outside the root directory. -/
theorem loader_read_serves_traversal_escapes :
    fsRead "templates"
        (fun p => if p = "templates-evil/secret.html" then some "SECRET" else none)
        "../templates-evil/secret.html" = .ok "SECRET"
    ∧ embedRead "templates"
        (fun p => if p = "secret.html" then some "SECRET" else none)
        "../secret.html" = .ok "SECRET"
    ∧ goPathClean (goPathJoin "templates" "../templates-evil/secret.html")
        = "templates-evil/secret.html"
    ∧ goPathJoin "templates" "../secret.html" = "secret.html" :=
  ⟨rfl, rfl, rfl, rfl⟩

/-- C7: `WriteResponse` over a two-valued header key leaves only the last value
in the response header sink (`Header().Set` replaces on every iteration of the
value loop), dropping the first value instead of preserving the multi-value
sequence. -/
theorem writeResponse_keeps_only_last_value :
    writeResponse [("X-Test", ["a", "b"])] [] = [("X-Test", ["b"])] := rfl

/-- C9: `Options.Clone` is a deep copy under the store model: the clone's
params, header and args hold the same contents as the original's, the
original's cells are untouched by the cloning, and — no shared backing
storage — writing any new contents through the clone's references leaves
every original view unchanged. -/
theorem options_clone_is_deep_copy (o : OptionsObj) (s : Store) (h : o.wf s)
    (pv : List (String × String)) (hv : List (String × List String)) (av : List GoVal) :
    ((cloneOptions o s).2.paramsAt (cloneOptions o s).1.paramsRef = s.paramsAt o.paramsRef
      ∧ (cloneOptions o s).2.headerAt (cloneOptions o s).1.headerRef = s.headerAt o.headerRef
      ∧ (cloneOptions o s).2.argsAt (cloneOptions o s).1.argsRef = s.argsAt o.argsRef)
    ∧ ((cloneOptions o s).2.paramsAt o.paramsRef = s.paramsAt o.paramsRef
      ∧ (cloneOptions o s).2.headerAt o.headerRef = s.headerAt o.headerRef
      ∧ (cloneOptions o s).2.argsAt o.argsRef = s.argsAt o.argsRef)
    ∧ (((cloneOptions o s).2.setParams (cloneOptions o s).1.paramsRef pv).paramsAt o.paramsRef
        = (cloneOptions o s).2.paramsAt o.paramsRef
      ∧ ((cloneOptions o s).2.setHeader (cloneOptions o s).1.headerRef hv).headerAt o.headerRef
        = (cloneOptions o s).2.headerAt o.headerRef
      ∧ ((cloneOptions o s).2.setArgs (cloneOptions o s).1.argsRef av).argsAt o.argsRef
        = (cloneOptions o s).2.argsAt o.argsRef) := by
  obtain ⟨hp, hh, ha⟩ := h
  refine ⟨⟨?_, ?_, ?_⟩, ⟨?_, ?_, ?_⟩, ⟨?_, ?_, ?_⟩⟩ <;>
    simp only [cloneOptions, Store.setParams, Store.setHeader, Store.setArgs] <;>
    split_ifs <;> first | rfl | omega

/-- Witness for `options_clone_is_deep_copy` on a one-entry populated Options
object living at references 0, 1, 2 of a three-cell store. -/
theorem options_clone_is_deep_copy_witness :
    (OptionsObj.wf ⟨"test", 5, "", "", "", true, 0, 1, 2⟩
      ⟨3, fun _ => [("key", "value")], fun _ => [("Content-Type", ["text/plain"])],
        fun _ => [.str "test"]⟩)
    ∧ ((cloneOptions ⟨"test", 5, "", "", "", true, 0, 1, 2⟩
        ⟨3, fun _ => [("key", "value")], fun _ => [("Content-Type", ["text/plain"])],
          fun _ => [.str "test"]⟩).2.setParams
        (cloneOptions ⟨"test", 5, "", "", "", true, 0, 1, 2⟩
        ⟨3, fun _ => [("key", "value")], fun _ => [("Content-Type", ["text/plain"])],
          fun _ => [.str "test"]⟩).1.paramsRef [("key", "value"), ("newKey", "newValue")]).paramsAt 0
      = (cloneOptions ⟨"test", 5, "", "", "", true, 0, 1, 2⟩
        ⟨3, fun _ => [("key", "value")], fun _ => [("Content-Type", ["text/plain"])],
          fun _ => [.str "test"]⟩).2.paramsAt 0 := by
  refine ⟨⟨by decide, by decide, by decide⟩, ?_⟩
  exact (options_clone_is_deep_copy ⟨"test", 5, "", "", "", true, 0, 1, 2⟩
    ⟨3, fun _ => [("key", "value")], fun _ => [("Content-Type", ["text/plain"])],
      fun _ => [.str "test"]⟩ ⟨by decide, by decide, by decide⟩
    [("key", "value"), ("newKey", "newValue")] [] []).2.2.1

/-- C10: with string data `s`, the Text adapter always writes the result of
printf-style formatting of `s` with the configured positional args — also when
no args were configured — plus one newline when pretty is set; the output is
the literal `s` whenever `s` has no `%` verb, while a verb with no matching
arg yields the formatter's error annotation instead of the literal string. -/
theorem text_string_always_goes_through_sprintf
    (cancelAt : Option Nat) (reason : GoErr) (s : String) (args : List GoVal)
    (h0 : ctxDone cancelAt 0 = false) :
    (textRenderContext ⟨cancelAt, reason⟩ (.str s) [textfOpt args] = (sprintf s args, none))
    ∧ (textRenderContext ⟨cancelAt, reason⟩ (.str s) [] = (sprintf s [], none))
    ∧ (textRenderContext ⟨cancelAt, reason⟩ (.str s)
        [withOpt [textfOpt args], formatOpt [prettyFmt]] = (sprintf s args ++ "\n", none))
    ∧ (hasPct s = false → sprintf s [] = s)
    ∧ sprintf "Hello, %s" [] = "Hello, %!s(MISSING)"
    ∧ sprintf "Hello, %s" [.str "Gophers"] = "Hello, Gophers" := by
  have hcheck : Ctx.check ⟨cancelAt, reason⟩ 0 = none := by
    simp [Ctx.check, h0]
  refine ⟨?_, ?_, ?_, ?_, rfl, rfl⟩
  · simp only [textRenderContext, hcheck]
    rfl
  · simp only [textRenderContext, hcheck]
    rfl
  · simp only [textRenderContext, hcheck]
    rfl
  · intro hp
    show (⟨sprintfAux s.toList []⟩ : String) = s
    rw [sprintfAux_no_pct s.toList hp]
    rfl

/-- Witness for `text_string_always_goes_through_sprintf` at a never-canceled
token, the format string of the spec's scenario, and one argument. -/
theorem text_string_always_goes_through_sprintf_witness :
    ctxDone none 0 = false
    ∧ textRenderContext ⟨none, ctxCanceled⟩ (.str "Hello, %s") [textfOpt [.str "Gophers"]]
        = (sprintf "Hello, %s" [.str "Gophers"], none) := by
  refine ⟨by decide, ?_⟩
  exact (text_string_always_goes_through_sprintf none ctxCanceled "Hello, %s"
    [.str "Gophers"] (by decide)).1
